import Mathlib

/-!
# Verification of the SigDigger Suscan `Singleton` configuration catalog

Shallow embedding of `src/Suscan/Library.cpp` (the layered configuration
catalog of SigDigger's Suscan glue layer).  C++ `QMap` collections are
embedded as association lists sorted strictly by key; the mutating
`Singleton` methods become pure functions threading the relevant
collection explicitly.  Backing-store contexts (`ConfigContext` /
`Suscan::Object` lists) are embedded either as plain record lists or as
traces of emitted store operations, so that "which write was issued at
which position" is directly observable.

Floating-point fields (`qreal`, `float`, `double`) are embedded as `ℚ`;
none of the verified properties depends on rounding.
-/

namespace SigDigger

/-! ## Ordered map model (Qt `QMap`)

A `QMap K V` is modelled as a list of key/value pairs kept strictly
sorted by key.  `qinsert` models `map[key] = value` (insert or assign),
`qfind` models `map.find(key)`, `qerase` models `map.remove(key)` and
`qlowerBound` models `map.lowerBound(key)` (iterator to the first entry
whose key is not less than the query). -/

abbrev QMap (K V : Type) : Type := List (K × V)

def qinsert {K V : Type} [LinearOrder K] : QMap K V → K → V → QMap K V
  | [], k, v => [(k, v)]
  | (k', v') :: rest, k, v =>
    if k < k' then (k, v) :: (k', v') :: rest
    else if k = k' then (k, v) :: rest
    else (k', v') :: qinsert rest k v

def qfind {K V : Type} [DecidableEq K] : QMap K V → K → Option V
  | [], _ => none
  | (k', v) :: rest, k => if k' = k then some v else qfind rest k

def qerase {K V : Type} [DecidableEq K] (m : QMap K V) (k : K) : QMap K V :=
  m.filter (fun p => decide (p.1 ≠ k))

def qlowerBound {K V : Type} [LinearOrder K] : QMap K V → K → Option (K × V)
  | [], _ => none
  | (k', v) :: rest, k => if k ≤ k' then some (k', v) else qlowerBound rest k

/-- Keys appear in strictly ascending order (the `QMap` representation
invariant; maps built by `qinsert` from `[]` always satisfy it). -/
def sortedKeys {K V : Type} [LinearOrder K] : QMap K V → Bool
  | [] => true
  | [_] => true
  | a :: b :: rest => (decide (a.1 < b.1) && sortedKeys (b :: rest))

/-! ## Locations

`Location` carries a name, a country and a geodetic site (`xyz_t site`
in the C++ header); `userLocation` is the layer tag.  `LocationRecord`
models a `Suscan::Object` record as read from a context: `conf.get`
returns the stored field when present and the supplied default
otherwise, which is embedded as `Option` fields plus `getD`. -/

structure LocationSite where
  lat : ℚ
  lon : ℚ
  height : ℚ
deriving DecidableEq, Repr

structure Location where
  name : String
  country : String
  site : LocationSite
  userLocation : Bool
deriving DecidableEq, Repr

structure LocationRecord where
  name : Option String
  country : Option String
  lat : Option ℚ
  lon : Option ℚ
  alt : Option ℚ
deriving DecidableEq, Repr

/-- Embeds `Location::deserialize` (`Library.cpp:38`): each `LOAD`/`LOAD_NAME`
keeps the target's current field value when the record lacks the field
(`conf.get(name, this->field)`); afterwards `site.height *= 1e-3`. -/
def Location.deserialize (loc : Location) (conf : LocationRecord) : Location :=
  { name := conf.name.getD loc.name
    country := conf.country.getD loc.country
    site :=
      { lat := conf.lat.getD loc.site.lat
        lon := conf.lon.getD loc.site.lon
        height := (conf.alt.getD loc.site.height) * (1/1000) }
    userLocation := loc.userLocation }

/-- Modelled from the spec: `Location::getLocationName` lives in
`Library.h` (not part of the sources here); per the spec's data model a
Location's key is its `name (string)`. -/
def getLocationName (loc : Location) : String :=
  loc.name

/-- Modelled from the spec: the default-constructed `Location` of
`Library.h`.  Its `std::string` members default-construct empty; the
numeric site members carry no specified value and are embedded as `0`
(`initLocationsFromContext` explicitly overwrites `height` with `0` and
`userLocation` with the layer tag before any use). -/
def locationDefault : Location :=
  { name := "", country := "", site := { lat := 0, lon := 0, height := 0 },
    userLocation := false }

/-- The record loop of `Singleton::initLocationsFromContext`
(`Library.cpp:389`): one single `Location loc` is deserialized into and
re-inserted for every record of the context. -/
def initLocationsLoop : Location → QMap String Location → List LocationRecord →
    QMap String Location
  | _, m, [] => m
  | loc, m, r :: rest =>
    initLocationsLoop (loc.deserialize r)
      (qinsert m (getLocationName (loc.deserialize r)) (loc.deserialize r)) rest

/-- Embeds `Singleton::initLocationsFromContext` (`Library.cpp:377`): sets
`loc.userLocation = user` and `loc.site.height = 0` on a scratch
`Location`, then runs the record loop of the context. -/
def initLocationsFromContext (locations : QMap String Location) (user : Bool)
    (records : List LocationRecord) : QMap String Location :=
  initLocationsLoop
    { locationDefault with
      userLocation := user
      site := { locationDefault.site with height := 0 } }
    locations records

/-- Embeds `Singleton::init_locations` (`Library.cpp:395`), restricted to the
two location contexts: the system context (`"locations"`) is loaded
first, the user context (`"user_locations"`) second, into the same map.
The QTH single-slot load from the `"qth"` context and the `setSave`
flags are store-adapter I/O and are not part of the merged map. -/
def init_locations (sysRecords userRecords : List LocationRecord) :
    QMap String Location :=
  initLocationsFromContext (initLocationsFromContext [] false sysRecords)
    true userRecords

/-! ## TLE sources -/

structure TLESource where
  name : String
  url : String
  user : Bool
deriving DecidableEq, Repr

structure TLERecord where
  name : Option String
  url : Option String
deriving DecidableEq, Repr

/-- Embeds `TLESource::deserialize` (`Library.cpp:66`): `LOAD(name); LOAD(url)`
with the same keep-current-value default as for locations. -/
def TLESource.deserialize (src : TLESource) (conf : TLERecord) : TLESource :=
  { name := conf.name.getD src.name
    url := conf.url.getD src.url
    user := src.user }

/-- Modelled from the spec: the default-constructed `TLESource` of
`Library.h`; `std::string` members default-construct empty. -/
def tleSourceDefault : TLESource :=
  { name := "", url := "", user := false }

/-- The record loop of `Singleton::initTLESourcesFromContext`
(`Library.cpp:430`): a single scratch `TLESource src` is reused. -/
def initTLESourcesLoop : TLESource → QMap String TLESource → List TLERecord →
    QMap String TLESource
  | _, m, [] => m
  | src, m, r :: rest =>
    initTLESourcesLoop (src.deserialize r)
      (qinsert m (src.deserialize r).name (src.deserialize r)) rest

/-- Embeds `Singleton::initTLESourcesFromContext` (`Library.cpp:419`). -/
def initTLESourcesFromContext (tleSources : QMap String TLESource) (user : Bool)
    (records : List TLERecord) : QMap String TLESource :=
  initTLESourcesLoop { tleSourceDefault with user := user } tleSources records

/-- Embeds `Singleton::init_tle_sources` (`Library.cpp:436`): system context
(`"tle"`) first, user context (`"user_tle"`) second. -/
def init_tle_sources (sysRecords userRecords : List TLERecord) :
    QMap String TLESource :=
  initTLESourcesFromContext (initTLESourcesFromContext [] false sysRecords)
    true userRecords

/-! ## Backing-store operations

Writes issued against a named `ConfigContext`'s object list are recorded
as a trace of `StoreOp`s, so the theorems can speak about *which* write
was performed at *which* position. -/

inductive StoreOp (α : Type) where
  | put (x : α) (pos : Nat)
  | append (x : α)
  | erase (pos : Nat)
deriving DecidableEq, Repr

/-! ## Bookmarks -/

structure BookmarkInfo where
  name : String
  frequency : ℤ
  color : String
  lowFreqCut : ℤ
  highFreqCut : ℤ
  modulation : String
deriving DecidableEq, Repr

/-- A catalogued bookmark: payload plus its backing-store index
(`entry`), where `-1` is the "unsaved" sentinel.  Modelled from the
spec: `Library.h` (not part of the sources here) declares `entry`; per
the spec a freshly constructed `Bookmark`'s index is the unsaved
sentinel `-1`. -/
structure Bookmark where
  info : BookmarkInfo
  entry : ℤ := -1
deriving DecidableEq, Repr

/-- The serialized record a bookmark sync writes
(`Library.cpp:644`-`651`): fields `name`, `frequency`, `color`,
`low_freq_cut`, `high_freq_cut`, `modulation`. -/
structure BookmarkRecord where
  name : String
  frequency : ℤ
  color : String
  lowFreqCut : ℤ
  highFreqCut : ℤ
  modulation : String
deriving DecidableEq, Repr

def bookmarkToObject (bm : Bookmark) : BookmarkRecord :=
  { name := bm.info.name
    frequency := bm.info.frequency
    color := bm.info.color
    lowFreqCut := bm.info.lowFreqCut
    highFreqCut := bm.info.highFreqCut
    modulation := bm.info.modulation }

/-- Embeds `Singleton::syncBookmarks` (`Library.cpp:634`): iterate the bookmark
map in key order; every bookmark whose `entry` is `-1` is serialized and
appended to the `"bookmarks"` context; no other bookmark is written.
The `try`/`catch` around the append only swallows store faults; the
store itself is not modelled as faulty here, so the emitted trace lists
every attempted write. -/
def syncBookmarks : QMap ℤ Bookmark → List (StoreOp BookmarkRecord)
  | [] => []
  | (_, bm) :: rest =>
    (if bm.entry = -1 then [StoreOp.append (bookmarkToObject bm)] else [])
      ++ syncBookmarks rest

/-- Embeds `Singleton::removeBookmark` (`Library.cpp:737`): if the frequency is
present, the bookmark is removed from the map and, when its `entry`
differs from the `-1` sentinel, a positional delete
(`list.remove(unsigned(bm.entry))`) is issued against the `"bookmarks"`
context immediately. -/
def removeBookmark (bookmarks : QMap ℤ Bookmark) (freq : ℤ) :
    QMap ℤ Bookmark × List (StoreOp BookmarkRecord) :=
  match qfind bookmarks freq with
  | none => (bookmarks, [])
  | some bm =>
    (qerase bookmarks freq,
      if bm.entry ≠ -1 then [StoreOp.erase bm.entry.toNat] else [])

/-- Embeds `Singleton::replaceBookmark` (`Library.cpp:752`): remove any
existing bookmark at that frequency (with its immediate positional
delete), then insert the fresh value; the fresh `Bookmark bm` keeps the
default unsaved index `-1`. -/
def replaceBookmark (bookmarks : QMap ℤ Bookmark) (info : BookmarkInfo) :
    QMap ℤ Bookmark × List (StoreOp BookmarkRecord) :=
  let removed := removeBookmark bookmarks info.frequency
  (qinsert removed.1 info.frequency { info := info }, removed.2)

/-- Embeds `Singleton::registerBookmark` (`Library.cpp:763`): refuse on an
existing frequency, insert otherwise. -/
def registerBookmark (bookmarks : QMap ℤ Bookmark) (info : BookmarkInfo) :
    Bool × QMap ℤ Bookmark :=
  if (qfind bookmarks info.frequency).isSome then (false, bookmarks)
  else (true, qinsert bookmarks info.frequency { info := info })

/-- Embeds `Singleton::getBookmarkFrom` (`Library.cpp:1029`):
`bookmarks.lowerBound(freq)`. -/
def getBookmarkFrom (bookmarks : QMap ℤ Bookmark) (freq : ℤ) :
    Option (ℤ × Bookmark) :=
  qlowerBound bookmarks freq

/-! ## UI configuration sync

A `uiConfig` element is a `Suscan::Object` whose payload is opaque here;
only its `isBorrowed()` flag (unmodified since load) matters to the
sync. -/

structure UIObj where
  borrowed : Bool
  payload : Nat
deriving DecidableEq, Repr

/-- Modelled from the spec: the store adapter's
`put(record, position)`.  Per the spec's Synchronizer contract an
in-place `put` succeeds exactly when "that position … exists in the
backing store" and throws otherwise (the `catch` in `syncUI` then falls
back to `append`). -/
def listPut {α : Type} (l : List α) (x : α) (i : Nat) : Option (List α) :=
  if i < l.length then some (l.set i x) else none

/-- The loop of `Singleton::syncUI` (`Library.cpp:623`): for index `i`
running over the in-memory `uiConfig`, a non-borrowed entry is written
with `list.put(uiConfig[i], i)`; on failure the entry is appended.
Returns the final backing list and the trace of issued writes. -/
def syncUILoop : List UIObj → Nat → List UIObj → List (StoreOp UIObj) →
    List UIObj × List (StoreOp UIObj)
  | [], _, backing, ops => (backing, ops)
  | x :: rest, i, backing, ops =>
    if x.borrowed then syncUILoop rest (i + 1) backing ops
    else
      match listPut backing x i with
      | some backing2 => syncUILoop rest (i + 1) backing2 (ops ++ [StoreOp.put x i])
      | none => syncUILoop rest (i + 1) (backing ++ [x]) (ops ++ [StoreOp.append x])

/-- Embeds `Singleton::syncUI` (`Library.cpp:613`). -/
def syncUI (uiConfig backing : List UIObj) :
    List UIObj × List (StoreOp UIObj) :=
  syncUILoop uiConfig 0 backing []

/-- The puts a pass of `syncUI` issues when every index exists in the
backing store: one `put x i` per non-borrowed entry `x` at its own
index `i`. -/
def putsOf : List UIObj → Nat → List (StoreOp UIObj)
  | [], _ => []
  | x :: rest, i =>
    (if x.borrowed then [] else [StoreOp.put x i]) ++ putsOf rest (i + 1)

/-- In-place image of a `syncUI` pass: each non-borrowed entry overwrites
the backing slot at its own index. -/
def setAll : List UIObj → Nat → List UIObj → List UIObj
  | [], _, backing => backing
  | x :: rest, i, backing =>
    setAll rest (i + 1) (if x.borrowed then backing else backing.set i x)

/-! ## Full-rewrite syncs (user locations, user TLE sources)

`Location::serialize` / `TLESource::serialize` stuff the entity's fields
into a fresh object and hand it to `ConfigObject::persist` (declared in
`Library.h`, outside these sources), which may throw; the surrounding
`try` in the sync loops swallows the failure.  The failure channel is
embedded as a `persistOk` predicate on the serialized record. -/

structure LocationObject where
  name : String
  country : String
  lat : ℚ
  lon : ℚ
  alt : ℚ
deriving DecidableEq, Repr

/-- The field content of `Location::serialize` (`Library.cpp:50`):
`alt` is stored as `site.height * 1e3`. -/
def Location.serializeObj (loc : Location) : LocationObject :=
  { name := loc.name
    country := loc.country
    lat := loc.site.lat
    lon := loc.site.lon
    alt := loc.site.height * 1000 }

/-- The loop of `Singleton::syncLocations` (`Library.cpp:576`): after
`list.clear()`, each user-owned location is serialized and appended;
a throwing `serialize`/`persist` is caught and that record skipped. -/
def syncLocationsLoop (persistOk : LocationObject → Bool) :
    QMap String Location → List LocationObject → List LocationObject
  | [], acc => acc
  | (_, p) :: rest, acc =>
    syncLocationsLoop persistOk rest
      (if p.userLocation then
        (if persistOk p.serializeObj then acc ++ [p.serializeObj] else acc)
      else acc)

/-- Embeds `Singleton::syncLocations` (`Library.cpp:567`), restricted to the
`"user_locations"` context (the QTH single-slot rewrite targets the
separate `"qth"` context).  Returns the context's record list after the
full rewrite. -/
def syncLocations (persistOk : LocationObject → Bool)
    (locations : QMap String Location) : List LocationObject :=
  syncLocationsLoop persistOk locations []

structure TLEObject where
  name : String
  url : String
deriving DecidableEq, Repr

/-- The field content of `TLESource::serialize` (`Library.cpp:73`). -/
def TLESource.serializeObj (src : TLESource) : TLEObject :=
  { name := src.name, url := src.url }

/-- The loop of `Singleton::syncTLESources` (`Library.cpp:603`). -/
def syncTLESourcesLoop (persistOk : TLEObject → Bool) :
    QMap String TLESource → List TLEObject → List TLEObject
  | [], acc => acc
  | (_, p) :: rest, acc =>
    syncTLESourcesLoop persistOk rest
      (if p.user then
        (if persistOk p.serializeObj then acc ++ [p.serializeObj] else acc)
      else acc)

/-- Embeds `Singleton::syncTLESources` (`Library.cpp:594`): full rewrite of the
`"user_tle"` context. -/
def syncTLESources (persistOk : TLEObject → Bool)
    (tleSources : QMap String TLESource) : List TLEObject :=
  syncTLESourcesLoop persistOk tleSources []

/-! ## Register / remove operations on the layer-aware collections -/

/-- Embeds `Singleton::registerLocation` (`Library.cpp:777`): refuse on an
existing name; otherwise copy the argument, force
`newLoc.userLocation = true` and insert it. -/
def registerLocation (locations : QMap String Location) (loc : Location) :
    Bool × QMap String Location :=
  if (qfind locations (getLocationName loc)).isSome then (false, locations)
  else
    (true,
      qinsert locations (getLocationName { loc with userLocation := true })
        { loc with userLocation := true })

/-- Embeds `Singleton::registerTLESource` (`Library.cpp:839`): refuse on an
existing name; otherwise copy the argument, force `newSrc.user = true`
and insert it. -/
def registerTLESource (tleSources : QMap String TLESource) (tleSrc : TLESource) :
    Bool × QMap String TLESource :=
  if (qfind tleSources tleSrc.name).isSome then (false, tleSources)
  else (true, qinsert tleSources { tleSrc with user := true }.name
    { tleSrc with user := true })

/-- Embeds `Singleton::removeTLESource` (`Library.cpp:855`): `false` when the
name is absent; `false` without touching the map when the entry is not
user-owned ("Non-user TLEs cannot be removed"); otherwise remove it and
return `true`. -/
def removeTLESource (tleSources : QMap String TLESource) (name : String) :
    Bool × QMap String TLESource :=
  match qfind tleSources name with
  | none => (false, tleSources)
  | some src =>
    if ¬src.user then (false, tleSources)
    else (true, qerase tleSources name)

/-- Modelled from the spec: the Location removal operation is not part
of `Library.cpp`; per the spec's Registry contract, `remove(key)` is
"false if absent; for layer-aware entities, false (no-op) if the entity
is not user-owned — system entries cannot be deleted". -/
def removeLocation (locations : QMap String Location) (name : String) :
    Bool × QMap String Location :=
  match qfind locations name with
  | none => (false, locations)
  | some loc =>
    if ¬loc.userLocation then (false, locations)
    else (true, qerase locations name)

/-! ## Spectrum units -/

structure SpectrumUnit where
  name : String
  dBPerUnit : ℚ
  zeroPoint : ℚ
deriving DecidableEq, Repr

/-- Embeds `Singleton::registerSpectrumUnit` (`Library.cpp:870`). -/
def registerSpectrumUnit (spectrumUnits : QMap String SpectrumUnit)
    (name : String) (dBPerUnit zeroPoint : ℚ) :
    Bool × QMap String SpectrumUnit :=
  if (qfind spectrumUnits name).isSome then (false, spectrumUnits)
  else
    (true, qinsert spectrumUnits name
      { name := name, dBPerUnit := dBPerUnit, zeroPoint := zeroPoint })

/-- Embeds `Singleton::getSpectrumUnitFrom` (`Library.cpp:1108`):
`spectrumUnits.lowerBound(name)`. -/
def getSpectrumUnitFrom (spectrumUnits : QMap String SpectrumUnit)
    (name : String) : Option (String × SpectrumUnit) :=
  qlowerBound spectrumUnits name

/-! ## Lazy subsystem gates

The four `init_*` gates of the `Singleton` guard one external
initialization each behind a boolean flag; `SU_ATTEMPT` throws on
failure, which leaves the flag unset.  The outcome of the external
initializer at a given call is an explicit `envOk` argument; `invoked`
records whether the external initializer ran at all during the call and
`ok` whether the call returned without throwing.  (On success,
`init_sources` additionally runs the two discovery walks populating the
profile and device collections; the walks do not touch the gate
flags.) -/

structure GateFlags where
  sources_initd : Bool
  estimators_initd : Bool
  spectrum_sources_initd : Bool
  inspectors_initd : Bool
deriving DecidableEq, Repr

structure GateResult where
  flags : GateFlags
  invoked : Bool
  ok : Bool
deriving DecidableEq, Repr

/-- Embeds `Singleton::init_sources` (`Library.cpp:190`). -/
def init_sources (s : GateFlags) (envOk : Bool) : GateResult :=
  if ¬s.sources_initd then
    if envOk then ⟨{ s with sources_initd := true }, true, true⟩
    else ⟨s, true, false⟩
  else ⟨s, false, true⟩

/-- Embeds `Singleton::init_estimators` (`Library.cpp:201`). -/
def init_estimators (s : GateFlags) (envOk : Bool) : GateResult :=
  if ¬s.estimators_initd then
    if envOk then ⟨{ s with estimators_initd := true }, true, true⟩
    else ⟨s, true, false⟩
  else ⟨s, false, true⟩

/-- Embeds `Singleton::init_spectrum_sources` (`Library.cpp:210`). -/
def init_spectrum_sources (s : GateFlags) (envOk : Bool) : GateResult :=
  if ¬s.spectrum_sources_initd then
    if envOk then ⟨{ s with spectrum_sources_initd := true }, true, true⟩
    else ⟨s, true, false⟩
  else ⟨s, false, true⟩

/-- Embeds `Singleton::init_inspectors` (`Library.cpp:219`). -/
def init_inspectors (s : GateFlags) (envOk : Bool) : GateResult :=
  if ¬s.inspectors_initd then
    if envOk then ⟨{ s with inspectors_initd := true }, true, true⟩
    else ⟨s, true, false⟩
  else ⟨s, false, true⟩

inductive Gate where
  | sources
  | estimators
  | spectrumSources
  | inspectors
deriving DecidableEq, Repr

def callGate : Gate → GateFlags → Bool → GateResult
  | Gate.sources, s, envOk => init_sources s envOk
  | Gate.estimators, s, envOk => init_estimators s envOk
  | Gate.spectrumSources, s, envOk => init_spectrum_sources s envOk
  | Gate.inspectors, s, envOk => init_inspectors s envOk

def flagOf : Gate → GateFlags → Bool
  | Gate.sources, s => s.sources_initd
  | Gate.estimators, s => s.estimators_initd
  | Gate.spectrumSources, s => s.spectrum_sources_initd
  | Gate.inspectors, s => s.inspectors_initd

/-- Number of calls in the trace that actually ran gate `g`'s external
initializer and completed it successfully. -/
def succInvocations (g : Gate) : GateFlags → List (Gate × Bool) → Nat
  | _, [] => 0
  | s, (g', envOk) :: rest =>
    (if g' = g ∧ (callGate g' s envOk).invoked = true ∧
        (callGate g' s envOk).ok = true then 1 else 0)
      + succInvocations g (callGate g' s envOk).flags rest

/-! ## Basic `QMap` lemmas -/

theorem qfind_qinsert_self {K V : Type} [LinearOrder K] [DecidableEq K]
    (m : QMap K V) (k : K) (v : V) : qfind (qinsert m k v) k = some v := by
  induction m with
  | nil => simp [qinsert, qfind]
  | cons hd tl ih =>
    obtain ⟨k', v'⟩ := hd
    by_cases h1 : k < k'
    · simp [qinsert, h1, qfind]
    · by_cases h2 : k = k'
      · simp [qinsert, h1, h2, qfind]
      · have hne : k' ≠ k := fun h => h2 h.symm
        simp [qinsert, h1, h2, qfind, hne, ih]

theorem qfind_qerase_self {K V : Type} [DecidableEq K]
    (m : QMap K V) (k : K) : qfind (qerase m k) k = none := by
  induction m with
  | nil => simp [qerase, qfind]
  | cons hd tl ih =>
    obtain ⟨k', v'⟩ := hd
    by_cases h : k' = k
    · simpa [qerase, h] using ih
    · simpa [qerase, h, qfind] using ih

/-! ## C1 — layered load precedence -/

/-- C1, counterexample.  The claim says that loading Locations from
a system context containing `A` and `B` and then a user context
containing `B` and `C` keeps the *system*-layer copy of `B`
(first occurrence wins).  On the code, `initLocationsFromContext`
stores each deserialized entity with `locations[key] = loc`, which
*overwrites* an existing key: after the layered load, the entry for
`"B"` is the user-layer one (`userLocation = true`), not the
system-layer one. -/
theorem C1_counterexample :
    (qfind
      (init_locations
        [⟨some "A", some "", some 0, some 0, some 0⟩,
         ⟨some "B", some "", some 0, some 0, some 0⟩]
        [⟨some "B", some "", some 0, some 0, some 0⟩,
         ⟨some "C", some "", some 0, some 0, some 0⟩]) "B").map
        Location.userLocation = some true ∧
    (qfind
      (init_locations
        [⟨some "A", some "", some 0, some 0, some 0⟩,
         ⟨some "B", some "", some 0, some 0, some 0⟩]
        [⟨some "B", some "", some 0, some 0, some 0⟩,
         ⟨some "C", some "", some 0, some 0, some 0⟩]) "B").map
        Location.userLocation ≠ some false := by
  have h :
      init_locations
        [⟨some "A", some "", some 0, some 0, some 0⟩,
         ⟨some "B", some "", some 0, some 0, some 0⟩]
        [⟨some "B", some "", some 0, some 0, some 0⟩,
         ⟨some "C", some "", some 0, some 0, some 0⟩] =
      [("A", ⟨"A", "", ⟨0, 0, 0⟩, false⟩),
       ("B", ⟨"B", "", ⟨0, 0, 0⟩, true⟩),
       ("C", ⟨"C", "", ⟨0, 0, 0⟩, true⟩)] := by
    simp [init_locations, initLocationsFromContext, initLocationsLoop,
      Location.deserialize, getLocationName, locationDefault, qinsert]
    decide
  rw [h]
  constructor
  · simp [qfind]
  · simp [qfind]

/-- C1, amended.  On a layered load the *last* occurrence of a key
wins (each `map[key] = loc` store overwrites), so the user layer
shadows the system layer: loading Locations from a system context
containing `A` and `B` then a user context containing `B` and `C`
yields exactly `A(system)`, `B(user)`, `C(user)`. -/
theorem C1_last_occurrence_wins :
    (∀ (m : QMap String Location) (k : String) (v : Location),
      qfind (qinsert m k v) k = some v) ∧
    init_locations
      [⟨some "A", some "", some 0, some 0, some 0⟩,
       ⟨some "B", some "", some 0, some 0, some 0⟩]
      [⟨some "B", some "", some 0, some 0, some 0⟩,
       ⟨some "C", some "", some 0, some 0, some 0⟩] =
    [("A", ⟨"A", "", ⟨0, 0, 0⟩, false⟩),
     ("B", ⟨"B", "", ⟨0, 0, 0⟩, true⟩),
     ("C", ⟨"C", "", ⟨0, 0, 0⟩, true⟩)] := by
  refine ⟨fun m k v => qfind_qinsert_self m k v, ?_⟩
  simp [init_locations, initLocationsFromContext, initLocationsLoop,
    Location.deserialize, getLocationName, locationDefault, qinsert]
  decide

/-! ## C10 — reused deserialization target -/

/-- C10.  `initLocationsFromContext` deserializes every record of a
context into one single `Location loc`: a record that lacks a field
keeps the previously deserialized record's value for it, and an
inherited altitude is re-scaled by `1e-3` again on each such pass.
Concretely, after a record with fields `n1/c1/la1/lo1/al1`, a record
carrying only a name `n2` loads as the location with country `c1`,
latitude `la1`, longitude `lo1` and height `al1 * 1e-3 * 1e-3`. -/
theorem C10_reused_deserialization_target (user : Bool)
    (m : QMap String Location) (n1 c1 : String) (la1 lo1 al1 : ℚ)
    (n2 : String) :
    initLocationsFromContext m user
      [⟨some n1, some c1, some la1, some lo1, some al1⟩,
       ⟨some n2, none, none, none, none⟩] =
    qinsert (qinsert m n1 ⟨n1, c1, ⟨la1, lo1, al1 * (1/1000)⟩, user⟩) n2
      ⟨n2, c1, ⟨la1, lo1, al1 * (1/1000) * (1/1000)⟩, user⟩ := by
  simp [initLocationsFromContext, initLocationsLoop, Location.deserialize,
    getLocationName, locationDefault]

/-! ## C9 — register forces the user-owned flag -/

/-- C9.  A successful `registerLocation` / `registerTLESource`
stores a copy of the argument whose user-owned flag is forced to
`true`, whatever flag the caller supplied. -/
theorem C9_register_forces_user_flag (locs : QMap String Location)
    (loc : Location) (tles : QMap String TLESource) (src : TLESource) :
    ((registerLocation locs loc).1 = true →
      qfind (registerLocation locs loc).2 (getLocationName loc) =
        some { loc with userLocation := true }) ∧
    ((registerTLESource tles src).1 = true →
      qfind (registerTLESource tles src).2 src.name =
        some { src with user := true }) := by
  constructor
  · intro h
    by_cases hf : (qfind locs (getLocationName loc)).isSome
    · simp [registerLocation, hf] at h
    · simp [registerLocation, hf]
      exact qfind_qinsert_self locs (getLocationName loc)
        { loc with userLocation := true }
  · intro h
    by_cases hf : (qfind tles src.name).isSome
    · simp [registerTLESource, hf] at h
    · simp [registerTLESource, hf]
      exact qfind_qinsert_self tles src.name { src with user := true }

/-- C9, witness. -/
theorem C9_witness :
    qfind (registerLocation [] ⟨"X", "", ⟨0, 0, 0⟩, false⟩).2
        (getLocationName ⟨"X", "", ⟨0, 0, 0⟩, false⟩) =
      some ⟨"X", "", ⟨0, 0, 0⟩, true⟩ ∧
    qfind (registerTLESource [] ⟨"S", "url", false⟩).2 "S" =
      some ⟨"S", "url", true⟩ :=
  ⟨(C9_register_forces_user_flag [] ⟨"X", "", ⟨0, 0, 0⟩, false⟩ []
      ⟨"S", "url", false⟩).1 rfl,
   (C9_register_forces_user_flag [] ⟨"X", "", ⟨0, 0, 0⟩, false⟩ []
      ⟨"S", "url", false⟩).2 rfl⟩

/-! ## C4 — register inserts iff the key is absent -/

/-- C4.  For each collection with a register operation (bookmarks
by frequency, locations by name, TLE sources by name, spectrum units by
name): `register` returns `true` iff the key is absent, in which case
it inserts the entity; on a collision it returns `false` and leaves the
collection exactly as it was. -/
theorem C4_register_semantics
    (bms : QMap ℤ Bookmark) (info : BookmarkInfo)
    (locs : QMap String Location) (loc : Location)
    (tles : QMap String TLESource) (src : TLESource)
    (units : QMap String SpectrumUnit) (uname : String)
    (dBPerUnit zeroPoint : ℚ) :
    ((registerBookmark bms info).1 = true ↔ qfind bms info.frequency = none) ∧
    (qfind bms info.frequency = none →
      registerBookmark bms info =
        (true, qinsert bms info.frequency { info := info })) ∧
    ((qfind bms info.frequency).isSome = true →
      registerBookmark bms info = (false, bms)) ∧
    ((registerLocation locs loc).1 = true ↔
      qfind locs (getLocationName loc) = none) ∧
    (qfind locs (getLocationName loc) = none →
      registerLocation locs loc =
        (true, qinsert locs (getLocationName loc)
          { loc with userLocation := true })) ∧
    ((qfind locs (getLocationName loc)).isSome = true →
      registerLocation locs loc = (false, locs)) ∧
    ((registerTLESource tles src).1 = true ↔ qfind tles src.name = none) ∧
    (qfind tles src.name = none →
      registerTLESource tles src =
        (true, qinsert tles src.name { src with user := true })) ∧
    ((qfind tles src.name).isSome = true →
      registerTLESource tles src = (false, tles)) ∧
    ((registerSpectrumUnit units uname dBPerUnit zeroPoint).1 = true ↔
      qfind units uname = none) ∧
    (qfind units uname = none →
      registerSpectrumUnit units uname dBPerUnit zeroPoint =
        (true, qinsert units uname
          { name := uname, dBPerUnit := dBPerUnit, zeroPoint := zeroPoint })) ∧
    ((qfind units uname).isSome = true →
      registerSpectrumUnit units uname dBPerUnit zeroPoint =
        (false, units)) := by
  refine ⟨?_, ?_, ?_, ?_, ?_, ?_, ?_, ?_, ?_, ?_, ?_, ?_⟩
  · cases h : qfind bms info.frequency <;> simp [registerBookmark, h]
  · cases h : qfind bms info.frequency <;> simp [registerBookmark, h]
  · cases h : qfind bms info.frequency <;> simp [registerBookmark, h]
  · cases h : qfind locs loc.name <;>
      simp [registerLocation, getLocationName, h]
  · cases h : qfind locs loc.name <;>
      simp [registerLocation, getLocationName, h]
  · cases h : qfind locs loc.name <;>
      simp [registerLocation, getLocationName, h]
  · cases h : qfind tles src.name <;> simp [registerTLESource, h]
  · cases h : qfind tles src.name <;> simp [registerTLESource, h]
  · cases h : qfind tles src.name <;> simp [registerTLESource, h]
  · cases h : qfind units uname <;> simp [registerSpectrumUnit, h]
  · cases h : qfind units uname <;> simp [registerSpectrumUnit, h]
  · cases h : qfind units uname <;> simp [registerSpectrumUnit, h]

/-- C4, witness. -/
theorem C4_witness :
    registerBookmark [] ⟨"FM", 100, "#ffffff", 0, 0, ""⟩ =
      (true, qinsert [] (100 : ℤ)
        { info := ⟨"FM", 100, "#ffffff", 0, 0, ""⟩ }) ∧
    registerSpectrumUnit [] "dBFS" 1 0 =
      (true, qinsert [] "dBFS" { name := "dBFS", dBPerUnit := 1, zeroPoint := 0 }) :=
  ⟨(C4_register_semantics [] ⟨"FM", 100, "#ffffff", 0, 0, ""⟩ []
      ⟨"X", "", ⟨0, 0, 0⟩, false⟩ [] ⟨"S", "url", false⟩ [] "dBFS" 1 0).2.1 rfl,
   (C4_register_semantics [] ⟨"FM", 100, "#ffffff", 0, 0, ""⟩ []
      ⟨"X", "", ⟨0, 0, 0⟩, false⟩ [] ⟨"S", "url", false⟩ []
      "dBFS" 1 0).2.2.2.2.2.2.2.2.2.2.1 rfl⟩

/-! ## C5 — remove on layer-aware collections -/

/-- C5.  `remove(key)` on a layer-aware collection returns `false`
when the key is absent, returns `false` and leaves the collection
unchanged when the entity is present but not user-owned, and removes
the entity and returns `true` when it is user-owned.  (`removeTLESource`
is `Library.cpp:855`; the Location removal operation is not part of
`Library.cpp` and is modelled from the spec as `removeLocation`.) -/
theorem C5_remove_layer_aware (tles : QMap String TLESource)
    (locs : QMap String Location) (name : String) :
    (qfind tles name = none → removeTLESource tles name = (false, tles)) ∧
    (∀ src, qfind tles name = some src → src.user = false →
      removeTLESource tles name = (false, tles)) ∧
    (∀ src, qfind tles name = some src → src.user = true →
      removeTLESource tles name = (true, qerase tles name) ∧
        qfind (removeTLESource tles name).2 name = none) ∧
    (qfind locs name = none → removeLocation locs name = (false, locs)) ∧
    (∀ loc, qfind locs name = some loc → loc.userLocation = false →
      removeLocation locs name = (false, locs)) ∧
    (∀ loc, qfind locs name = some loc → loc.userLocation = true →
      removeLocation locs name = (true, qerase locs name) ∧
        qfind (removeLocation locs name).2 name = none) := by
  refine ⟨?_, ?_, ?_, ?_, ?_, ?_⟩
  · intro h; simp [removeTLESource, h]
  · intro src h hu; simp [removeTLESource, h, hu]
  · intro src h hu
    refine ⟨by simp [removeTLESource, h, hu], ?_⟩
    simp [removeTLESource, h, hu, qfind_qerase_self]
  · intro h; simp [removeLocation, h]
  · intro loc h hu; simp [removeLocation, h, hu]
  · intro loc h hu
    refine ⟨by simp [removeLocation, h, hu], ?_⟩
    simp [removeLocation, h, hu, qfind_qerase_self]

/-- C5, witness. -/
theorem C5_witness :
    removeTLESource [("S", ⟨"S", "url", false⟩)] "S" =
      (false, [("S", ⟨"S", "url", false⟩)]) ∧
    removeTLESource [("U", ⟨"U", "url", true⟩)] "U" =
      (true, qerase [("U", ⟨"U", "url", true⟩)] "U") :=
  ⟨(C5_remove_layer_aware [("S", ⟨"S", "url", false⟩)] [] "S").2.1
      ⟨"S", "url", false⟩ rfl rfl,
   ((C5_remove_layer_aware [("U", ⟨"U", "url", true⟩)] [] "U").2.2.1
      ⟨"U", "url", true⟩ rfl rfl).1⟩

/-! ## C3 — best-effort full-rewrite sync -/

theorem syncTLESourcesLoop_eq (pOk : TLEObject → Bool) :
    ∀ (srcs : QMap String TLESource) (acc : List TLEObject),
      syncTLESourcesLoop pOk srcs acc =
        acc ++ srcs.filterMap (fun p =>
          if p.2.user = true then
            (if pOk p.2.serializeObj = true then some p.2.serializeObj else none)
          else none)
  | [], acc => by simp [syncTLESourcesLoop]
  | (k, p) :: rest, acc => by
    by_cases hu : p.user = true
    · by_cases hp : pOk p.serializeObj = true
      · simp [syncTLESourcesLoop, hu, hp, syncTLESourcesLoop_eq pOk rest]
      · simp [syncTLESourcesLoop, hu, hp, syncTLESourcesLoop_eq pOk rest]
    · simp [syncTLESourcesLoop, hu, syncTLESourcesLoop_eq pOk rest]

/-- C3.  A full-rewrite sync of a user-owned collection skips
exactly the entities whose serialize/persist step fails and appends
every other user-owned entity in its in-memory relative order; the sync
functions are total, so no exception escapes to the caller.  With 5
user locations whose 3rd fails to serialize, the backing context ends
up with exactly the other 4 in order.  The TLE-source sync satisfies
the same best-effort characterization for every input. -/
theorem C3_best_effort_sync (persistOk : LocationObject → Bool)
    (k1 k2 k3 k4 k5 : String) (l1 l2 l3 l4 l5 : Location)
    (hu1 : l1.userLocation = true) (hu2 : l2.userLocation = true)
    (hu3 : l3.userLocation = true) (hu4 : l4.userLocation = true)
    (hu5 : l5.userLocation = true)
    (h1 : persistOk l1.serializeObj = true)
    (h2 : persistOk l2.serializeObj = true)
    (h3 : persistOk l3.serializeObj = false)
    (h4 : persistOk l4.serializeObj = true)
    (h5 : persistOk l5.serializeObj = true) :
    syncLocations persistOk [(k1, l1), (k2, l2), (k3, l3), (k4, l4), (k5, l5)] =
      [l1.serializeObj, l2.serializeObj, l4.serializeObj, l5.serializeObj] ∧
    (∀ (pOk : TLEObject → Bool) (srcs : QMap String TLESource),
      syncTLESources pOk srcs = srcs.filterMap (fun p =>
        if p.2.user = true then
          (if pOk p.2.serializeObj = true then some p.2.serializeObj else none)
        else none)) := by
  constructor
  · simp [syncLocations, syncLocationsLoop, hu1, hu2, hu3, hu4, hu5,
      h1, h2, h3, h4, h5]
  · intro pOk srcs
    simpa [syncTLESources] using syncTLESourcesLoop_eq pOk srcs []

/-- C3, witness. -/
theorem C3_witness :
    syncLocations (fun r => decide (r.name ≠ "L3"))
      [("L1", ⟨"L1", "", ⟨0, 0, 0⟩, true⟩), ("L2", ⟨"L2", "", ⟨0, 0, 0⟩, true⟩),
       ("L3", ⟨"L3", "", ⟨0, 0, 0⟩, true⟩), ("L4", ⟨"L4", "", ⟨0, 0, 0⟩, true⟩),
       ("L5", ⟨"L5", "", ⟨0, 0, 0⟩, true⟩)] =
      [Location.serializeObj ⟨"L1", "", ⟨0, 0, 0⟩, true⟩,
       Location.serializeObj ⟨"L2", "", ⟨0, 0, 0⟩, true⟩,
       Location.serializeObj ⟨"L4", "", ⟨0, 0, 0⟩, true⟩,
       Location.serializeObj ⟨"L5", "", ⟨0, 0, 0⟩, true⟩] :=
  (C3_best_effort_sync (fun r => decide (r.name ≠ "L3")) "L1" "L2" "L3" "L4" "L5"
    ⟨"L1", "", ⟨0, 0, 0⟩, true⟩ ⟨"L2", "", ⟨0, 0, 0⟩, true⟩
    ⟨"L3", "", ⟨0, 0, 0⟩, true⟩ ⟨"L4", "", ⟨0, 0, 0⟩, true⟩
    ⟨"L5", "", ⟨0, 0, 0⟩, true⟩
    rfl rfl rfl rfl rfl rfl rfl rfl rfl rfl).1

/-! ## C7 — lazy subsystem gates -/

theorem callGate_of_flag_true (g : Gate) (s : GateFlags) (envOk : Bool)
    (h : flagOf g s = true) : callGate g s envOk = ⟨s, false, true⟩ := by
  cases g <;>
    simp_all [callGate, flagOf, init_sources, init_estimators,
      init_spectrum_sources, init_inspectors]

theorem flagOf_callGate_mono (g g' : Gate) (s : GateFlags) (envOk : Bool)
    (h : flagOf g s = true) :
    flagOf g (callGate g' s envOk).flags = true := by
  cases g <;> cases g' <;> cases envOk <;>
    simp_all [callGate, flagOf, init_sources, init_estimators,
      init_spectrum_sources, init_inspectors] <;>
    split <;> simp_all

theorem flagOf_callGate_other (g g' : Gate) (s : GateFlags) (envOk : Bool)
    (h : g ≠ g') :
    flagOf g' (callGate g s envOk).flags = flagOf g' s := by
  cases g <;> cases g' <;> cases envOk <;>
    simp_all [callGate, flagOf, init_sources, init_estimators,
      init_spectrum_sources, init_inspectors] <;>
    split <;> simp_all

theorem succInvocations_of_flag_true (g : Gate) :
    ∀ (trace : List (Gate × Bool)) (s : GateFlags), flagOf g s = true →
      succInvocations g s trace = 0
  | [], _, _ => rfl
  | (g', envOk) :: rest, s, h => by
    rw [succInvocations]
    by_cases hg : g' = g
    · subst hg
      rw [callGate_of_flag_true g' s envOk h]
      have hrec := succInvocations_of_flag_true g' rest s h
      simpa using hrec
    · have hrec := succInvocations_of_flag_true g rest
        (callGate g' s envOk).flags (flagOf_callGate_mono g g' s envOk h)
      simp [hg, hrec]

theorem succInvocations_le_one (g : Gate) :
    ∀ (trace : List (Gate × Bool)) (s : GateFlags),
      succInvocations g s trace ≤ if flagOf g s = true then 0 else 1
  | [], s => by cases h : flagOf g s <;> simp [succInvocations, h]
  | (g', envOk) :: rest, s => by
    by_cases h : flagOf g s = true
    · simp [h, succInvocations_of_flag_true g ((g', envOk) :: rest) s h]
    · simp only [h, if_false]
      rw [succInvocations]
      by_cases hg : g' = g
      · subst hg
        cases envOk
        · have hflags : (callGate g' s false).flags = s := by
            cases g' <;>
              simp_all [callGate, flagOf, init_sources, init_estimators,
                init_spectrum_sources, init_inspectors]
          have hok : (callGate g' s false).ok = false := by
            cases g' <;>
              simp_all [callGate, flagOf, init_sources, init_estimators,
                init_spectrum_sources, init_inspectors]
          have hrest := succInvocations_le_one g' rest s
          simp only [h, if_false] at hrest
          rw [hflags]
          simp [hok]
          simpa using hrest
        · have hflag2 : flagOf g' (callGate g' s true).flags = true := by
            cases g' <;>
              simp_all [callGate, flagOf, init_sources, init_estimators,
                init_spectrum_sources, init_inspectors]
          have hz := succInvocations_of_flag_true g' rest
            (callGate g' s true).flags hflag2
          simp only [hz, Nat.add_zero]
          split <;> simp
      · have hf2 : flagOf g (callGate g' s envOk).flags = flagOf g s :=
          flagOf_callGate_other g' g s envOk hg
        have hrest := succInvocations_le_one g rest (callGate g' s envOk).flags
        rw [hf2] at hrest
        simp only [h, if_false] at hrest
        simpa [hg] using hrest

/-- C7.  Each lazy subsystem gate invokes its external initializer
at most once successfully across any sequence of calls: a call finding
the flag set is a no-op and not an error; a failing initializer
propagates the failure (`ok = false`) and leaves all flags unchanged,
so a later call re-attempts; a successful initialization sets the
gate's flag; gates are independent (a call to one gate never changes
another gate's flag). -/
theorem C7_lazy_gates :
    (∀ (g : Gate) (s : GateFlags) (envOk : Bool), flagOf g s = true →
      callGate g s envOk = ⟨s, false, true⟩) ∧
    (∀ (g : Gate) (s : GateFlags), flagOf g s = false →
      callGate g s false = ⟨s, true, false⟩) ∧
    (∀ (g : Gate) (s : GateFlags), flagOf g s = false →
      flagOf g (callGate g s true).flags = true ∧
        (callGate g s true).ok = true ∧ (callGate g s true).invoked = true) ∧
    (∀ (g g' : Gate) (s : GateFlags) (envOk : Bool), g ≠ g' →
      flagOf g' (callGate g s envOk).flags = flagOf g' s) ∧
    (∀ (g : Gate) (s : GateFlags) (trace : List (Gate × Bool)),
      succInvocations g s trace ≤ if flagOf g s = true then 0 else 1) := by
  refine ⟨callGate_of_flag_true, ?_, ?_, flagOf_callGate_other,
    fun g s trace => succInvocations_le_one g trace s⟩
  · intro g s h
    cases g <;>
      simp_all [callGate, flagOf, init_sources, init_estimators,
        init_spectrum_sources, init_inspectors]
  · intro g s h
    cases g <;>
      simp_all [callGate, flagOf, init_sources, init_estimators,
        init_spectrum_sources, init_inspectors]

/-- C7, witness. -/
theorem C7_witness :
    callGate Gate.sources ⟨true, false, false, false⟩ true =
      ⟨⟨true, false, false, false⟩, false, true⟩ ∧
    callGate Gate.estimators ⟨true, false, false, false⟩ false =
      ⟨⟨true, false, false, false⟩, true, false⟩ ∧
    succInvocations Gate.sources ⟨false, false, false, false⟩
      [(Gate.sources, false), (Gate.sources, true), (Gate.sources, true)] ≤ 1 :=
  ⟨C7_lazy_gates.1 Gate.sources ⟨true, false, false, false⟩ true rfl,
   C7_lazy_gates.2.1 Gate.estimators ⟨true, false, false, false⟩ rfl,
   le_trans
     (C7_lazy_gates.2.2.2.2 Gate.sources ⟨false, false, false, false⟩
       [(Gate.sources, false), (Gate.sources, true), (Gate.sources, true)])
     (by simp [flagOf])⟩

/-! ## C8 — lower-bound range queries -/

theorem sortedKeys_tail {K V : Type} [LinearOrder K] (a : K × V)
    (rest : QMap K V) (h : sortedKeys (a :: rest) = true) :
    sortedKeys rest = true := by
  cases rest with
  | nil => rfl
  | cons b tl =>
    rw [sortedKeys] at h
    exact (Bool.and_eq_true _ _).mp h |>.2

theorem sortedKeys_head_lt {K V : Type} [LinearOrder K] :
    ∀ (a : K × V) (rest : QMap K V), sortedKeys (a :: rest) = true →
      ∀ p ∈ rest, a.1 < p.1
  | _, [], _, p, hp => by cases hp
  | a, b :: tl, h, p, hp => by
    rw [sortedKeys] at h
    obtain ⟨hab, htl⟩ := (Bool.and_eq_true _ _).mp h
    have hab2 : a.1 < b.1 := of_decide_eq_true hab
    cases hp with
    | head => exact hab2
    | tail _ hp2 =>
      exact lt_trans hab2 (sortedKeys_head_lt b tl htl p hp2)

theorem qlowerBound_some_spec {K V : Type} [LinearOrder K] :
    ∀ (m : QMap K V) (q k : K) (v : V), sortedKeys m = true →
      qlowerBound m q = some (k, v) →
      q ≤ k ∧ (k, v) ∈ m ∧ ∀ p ∈ m, q ≤ p.1 → k ≤ p.1
  | [], q, k, v, _, h => by simp [qlowerBound] at h
  | (k0, v0) :: rest, q, k, v, hs, h => by
    rw [qlowerBound] at h
    by_cases hq : q ≤ k0
    · rw [if_pos hq] at h
      obtain ⟨hk, hv⟩ := Prod.mk.injEq .. ▸ Option.some.injEq .. ▸ h
      refine ⟨hk ▸ hq, by simp [← hk, ← hv], ?_⟩
      intro p hp _
      cases hp with
      | head => exact le_of_eq hk.symm
      | tail _ hp2 =>
        exact hk ▸ le_of_lt (sortedKeys_head_lt (k0, v0) rest hs p hp2)
    · rw [if_neg hq] at h
      obtain ⟨h1, h2, h3⟩ := qlowerBound_some_spec rest q k v
        (sortedKeys_tail (k0, v0) rest hs) h
      refine ⟨h1, List.mem_cons_of_mem _ h2, ?_⟩
      intro p hp hqp
      cases hp with
      | head => exact absurd hqp hq
      | tail _ hp2 => exact h3 p hp2 hqp

theorem qlowerBound_none_spec {K V : Type} [LinearOrder K] :
    ∀ (m : QMap K V) (q : K), qlowerBound m q = none →
      ∀ p ∈ m, p.1 < q
  | [], _, _, p, hp => by cases hp
  | (k0, v0) :: rest, q, h, p, hp => by
    rw [qlowerBound] at h
    by_cases hq : q ≤ k0
    · rw [if_pos hq] at h; cases h
    · rw [if_neg hq] at h
      cases hp with
      | head => exact lt_of_not_le hq
      | tail _ hp2 => exact qlowerBound_none_spec rest q h p hp2

/-- C8.  The range query on an ordered-key collection
(`getSpectrumUnitFrom` on spectrum units, `getBookmarkFrom` on
bookmarks) returns the first entry whose key is greater than or equal
to the query key, or nothing when no such entry exists.  With units
`dBFS`, `dBK`, `dBW/Hz` registered, the lower-bound query for `dBJy`
returns `dBK`, the first name lexicographically ≥ `dBJy`. -/
theorem C8_lower_bound (units : QMap String SpectrumUnit) (qn : String)
    (bms : QMap ℤ Bookmark) (qf : ℤ)
    (hu : sortedKeys units = true) (hb : sortedKeys bms = true) :
    (∀ k v, getSpectrumUnitFrom units qn = some (k, v) →
      qn ≤ k ∧ (k, v) ∈ units ∧ ∀ p ∈ units, qn ≤ p.1 → k ≤ p.1) ∧
    (getSpectrumUnitFrom units qn = none → ∀ p ∈ units, p.1 < qn) ∧
    (∀ k bm, getBookmarkFrom bms qf = some (k, bm) →
      qf ≤ k ∧ (k, bm) ∈ bms ∧ ∀ p ∈ bms, qf ≤ p.1 → k ≤ p.1) ∧
    (getBookmarkFrom bms qf = none → ∀ p ∈ bms, p.1 < qf) ∧
    getSpectrumUnitFrom
      (registerSpectrumUnit
        (registerSpectrumUnit
          (registerSpectrumUnit [] "dBFS" 1 0).2 "dBK" 1 (-2286/10)).2
        "dBW/Hz" 1 0).2 "dBJy" =
      some ("dBK", { name := "dBK", dBPerUnit := 1, zeroPoint := -2286/10 }) := by
  refine ⟨fun k v h => qlowerBound_some_spec units qn k v hu h,
    fun h => qlowerBound_none_spec units qn h,
    fun k bm h => qlowerBound_some_spec bms qf k bm hb h,
    fun h => qlowerBound_none_spec bms qf h, ?_⟩
  simp [registerSpectrumUnit, qfind, qinsert, getSpectrumUnitFrom, qlowerBound]
  rw [if_neg (by decide), if_pos (by decide)]

/-- C8, witness. -/
theorem C8_witness :
    getSpectrumUnitFrom
      (registerSpectrumUnit
        (registerSpectrumUnit
          (registerSpectrumUnit [] "dBFS" 1 0).2 "dBK" 1 (-2286/10)).2
        "dBW/Hz" 1 0).2 "dBJy" =
      some ("dBK", { name := "dBK", dBPerUnit := 1, zeroPoint := -2286/10 }) :=
  (C8_lower_bound [] "dBJy" [] 0 rfl rfl).2.2.2.2

/-! ## C2 — positional reconciliation -/

theorem setAll_length : ∀ (cfg : List UIObj) (i : Nat) (b : List UIObj),
    (setAll cfg i b).length = b.length
  | [], _, _ => rfl
  | x :: rest, i, b => by
    rw [setAll, setAll_length rest (i + 1) _]
    split <;> simp

theorem listPut_eq_some {b : List UIObj} {x : UIObj} {i : Nat}
    (h : i < b.length) : listPut b x i = some (b.set i x) := by
  simp [listPut, h]

theorem listPut_eq_none {b : List UIObj} {x : UIObj} {i : Nat}
    (h : b.length ≤ i) : listPut b x i = none := by
  simp [listPut]
  omega

theorem syncUILoop_puts : ∀ (cfg : List UIObj) (i : Nat) (b : List UIObj)
    (ops : List (StoreOp UIObj)), i + cfg.length ≤ b.length →
    syncUILoop cfg i b ops = (setAll cfg i b, ops ++ putsOf cfg i)
  | [], i, b, ops, _ => by simp [syncUILoop, setAll, putsOf]
  | x :: rest, i, b, ops, h => by
    rw [syncUILoop, setAll, putsOf]
    by_cases hb : x.borrowed = true
    · rw [if_pos hb]
      have h2 : i + 1 + rest.length ≤ b.length := by
        simp only [List.length_cons] at h; omega
      rw [syncUILoop_puts rest (i + 1) b ops h2]
      simp [hb]
    · rw [if_neg hb]
      have hi : i < b.length := by
        simp only [List.length_cons] at h; omega
      rw [listPut_eq_some hi]
      have h2 : i + 1 + rest.length ≤ (b.set i x).length := by
        simp only [List.length_set, List.length_cons] at h ⊢; omega
      have hrec := syncUILoop_puts rest (i + 1) (b.set i x)
        (ops ++ [StoreOp.put x i]) h2
      simp [hb, hrec]

theorem setAll_set_comm : ∀ (cfg : List UIObj) (i : Nat) (b : List UIObj)
    (j : Nat) (y : UIObj), j < i →
    setAll cfg i (b.set j y) = (setAll cfg i b).set j y
  | [], _, _, _, _, _ => rfl
  | x :: rest, i, b, j, y, hj => by
    rw [setAll, setAll]
    by_cases hb : x.borrowed = true
    · rw [if_pos hb, if_pos hb]
      exact setAll_set_comm rest (i + 1) b j y (Nat.lt_succ_of_lt hj)
    · rw [if_neg hb, if_neg hb, List.set_comm y x b (Nat.ne_of_lt hj)]
      exact setAll_set_comm rest (i + 1) (b.set i x) j y (Nat.lt_succ_of_lt hj)

theorem setAll_idem : ∀ (cfg : List UIObj) (i : Nat) (b : List UIObj),
    setAll cfg i (setAll cfg i b) = setAll cfg i b
  | [], _, _ => rfl
  | x :: rest, i, b => by
    by_cases hb : x.borrowed = true
    · rw [setAll, setAll, if_pos hb, if_pos hb]
      exact setAll_idem rest (i + 1) b
    · rw [setAll, setAll, if_neg hb, if_neg hb]
      have hcomm := setAll_set_comm rest (i + 1) b i x (Nat.lt_succ_self i)
      rw [hcomm, List.set_set, ← hcomm, setAll_idem rest (i + 1) (b.set i x)]

theorem syncBookmarks_eq_appends : ∀ (bms : QMap ℤ Bookmark),
    syncBookmarks bms =
      (bms.filter (fun p => decide (p.2.entry = -1))).map
        (fun p => StoreOp.append (bookmarkToObject p.2))
  | [] => rfl
  | (k, bm) :: rest => by
    rw [syncBookmarks]
    by_cases h : bm.entry = -1
    · simp [h, List.filter_cons, syncBookmarks_eq_appends rest]
    · simp [h, List.filter_cons, syncBookmarks_eq_appends rest]

/-- C2, counterexample.  The claim says that syncing a registry
holding one modified bookmark with backing index 3 performs a `put` at
position 3.  In the code, `syncBookmarks` only ever *appends* bookmarks
whose backing index is the unsaved sentinel `-1`; a bookmark whose
index is `3` is not written at all, on the first sync or on any later
one — the emitted operation trace is empty, containing no `put`. -/
theorem C2_counterexample :
    syncBookmarks [((100 : ℤ), ⟨⟨"FM", 100, "#ffffff", 0, 0, ""⟩, 3⟩)] =
      ([] : List (StoreOp BookmarkRecord)) := by
  decide

/-- C2, amended.  During a sync pass over a position-tracked
collection, the in-place `put` protocol applies to `UIConfigEntry`
only: every not-borrowed entry is written with a `put` at its recorded
index, falling back to `append` when the position does not exist in the
backing store, and a second sync with no mutation in between issues the
same `put`s at the same positions with identical content, leaving the
backing store unchanged (no duplicate record, no index drift).  For
Bookmarks, the sync pass appends exactly the entries whose backing
index is the unsaved sentinel `-1` and performs no operation for
entries with a valid backing index. -/
theorem C2_positional_reconciliation
    (uiConfig backing : List UIObj) (bms : QMap ℤ Bookmark)
    (h : uiConfig.length ≤ backing.length) :
    (syncUI uiConfig backing).2 = putsOf uiConfig 0 ∧
    (syncUI uiConfig (syncUI uiConfig backing).1).2 = putsOf uiConfig 0 ∧
    (syncUI uiConfig (syncUI uiConfig backing).1).1 =
      (syncUI uiConfig backing).1 ∧
    (∀ (x : UIObj) (b : List UIObj) (i : Nat), x.borrowed = false →
      b.length ≤ i →
      syncUILoop [x] i b [] = (b ++ [x], [StoreOp.append x])) ∧
    syncBookmarks bms =
      (bms.filter (fun p => decide (p.2.entry = -1))).map
        (fun p => StoreOp.append (bookmarkToObject p.2)) := by
  have h0 : 0 + uiConfig.length ≤ backing.length := by simpa using h
  have hs := syncUILoop_puts uiConfig 0 backing [] h0
  have hfst : (syncUI uiConfig backing).1 = setAll uiConfig 0 backing := by
    rw [syncUI, hs]
  have h1 : 0 + uiConfig.length ≤ (setAll uiConfig 0 backing).length := by
    rw [setAll_length]; simpa using h
  have hs2 := syncUILoop_puts uiConfig 0 (setAll uiConfig 0 backing) [] h1
  refine ⟨?_, ?_, ?_, ?_, syncBookmarks_eq_appends bms⟩
  · rw [syncUI, hs]; simp
  · rw [hfst, syncUI, hs2]; simp
  · rw [hfst, syncUI, hs2]
    exact setAll_idem uiConfig 0 backing
  · intro x b i hbx hbl
    rw [syncUILoop, if_neg (by simp [hbx]), listPut_eq_none hbl, syncUILoop]
    simp

/-- C2, witness (for the amended statement): four UI entries of
which only the one at index 3 is modified, over a backing store of
length 4. -/
theorem C2_witness :
    (syncUI [⟨true, 0⟩, ⟨true, 1⟩, ⟨true, 2⟩, ⟨false, 33⟩]
      [⟨true, 0⟩, ⟨true, 1⟩, ⟨true, 2⟩, ⟨true, 3⟩]).2 =
      putsOf [⟨true, 0⟩, ⟨true, 1⟩, ⟨true, 2⟩, ⟨false, 33⟩] 0 ∧
    (syncUI [⟨true, 0⟩, ⟨true, 1⟩, ⟨true, 2⟩, ⟨false, 33⟩]
      (syncUI [⟨true, 0⟩, ⟨true, 1⟩, ⟨true, 2⟩, ⟨false, 33⟩]
        [⟨true, 0⟩, ⟨true, 1⟩, ⟨true, 2⟩, ⟨true, 3⟩]).1).2 =
      putsOf [⟨true, 0⟩, ⟨true, 1⟩, ⟨true, 2⟩, ⟨false, 33⟩] 0 :=
  ⟨(C2_positional_reconciliation
      [⟨true, 0⟩, ⟨true, 1⟩, ⟨true, 2⟩, ⟨false, 33⟩]
      [⟨true, 0⟩, ⟨true, 1⟩, ⟨true, 2⟩, ⟨true, 3⟩] [] (by decide)).1,
   (C2_positional_reconciliation
      [⟨true, 0⟩, ⟨true, 1⟩, ⟨true, 2⟩, ⟨false, 33⟩]
      [⟨true, 0⟩, ⟨true, 1⟩, ⟨true, 2⟩, ⟨true, 3⟩] [] (by decide)).2.1⟩

/-! ## C6 — replaceBookmark is an unconditional upsert -/

/-- C6.  `replaceBookmark` always succeeds: the resulting map holds
the fresh value with the unsaved (`-1`) backing index at the given
frequency.  When the displaced bookmark carried a valid (non-negative)
backing index, a positional delete at that index is issued against the
`"bookmarks"` context immediately (by `removeBookmark`, before the
insert — not deferred to a sync pass); an absent or unsaved old
bookmark produces no store operation. -/
theorem C6_replace_upsert (bms : QMap ℤ Bookmark) (info : BookmarkInfo) :
    (qfind (replaceBookmark bms info).1 info.frequency =
      some { info := info, entry := -1 }) ∧
    (∀ bm, qfind bms info.frequency = some bm → 0 ≤ bm.entry →
      (replaceBookmark bms info).2 = [StoreOp.erase bm.entry.toNat]) ∧
    (∀ bm, qfind bms info.frequency = some bm → bm.entry = -1 →
      (replaceBookmark bms info).2 = []) ∧
    (qfind bms info.frequency = none → (replaceBookmark bms info).2 = []) := by
  refine ⟨?_, ?_, ?_, ?_⟩
  · cases h : qfind bms info.frequency with
    | none =>
      simp [replaceBookmark, removeBookmark, h, qfind_qinsert_self]
    | some bm =>
      simp [replaceBookmark, removeBookmark, h, qfind_qinsert_self]
  · intro bm h hnn
    have hne : bm.entry ≠ -1 := by omega
    simp [replaceBookmark, removeBookmark, h, hne]
  · intro bm h he
    simp [replaceBookmark, removeBookmark, h, he]
  · intro h
    simp [replaceBookmark, removeBookmark, h]

/-- C6, witness. -/
theorem C6_witness :
    (replaceBookmark [((100 : ℤ), ⟨⟨"FM", 100, "#ffffff", 0, 0, ""⟩, 3⟩)]
      ⟨"FM2", 100, "#000000", 0, 0, ""⟩).2 =
      [StoreOp.erase ((3 : ℤ)).toNat] ∧
    qfind (replaceBookmark [((100 : ℤ), ⟨⟨"FM", 100, "#ffffff", 0, 0, ""⟩, 3⟩)]
      ⟨"FM2", 100, "#000000", 0, 0, ""⟩).1 100 =
      some { info := ⟨"FM2", 100, "#000000", 0, 0, ""⟩, entry := -1 } :=
  ⟨(C6_replace_upsert [((100 : ℤ), ⟨⟨"FM", 100, "#ffffff", 0, 0, ""⟩, 3⟩)]
      ⟨"FM2", 100, "#000000", 0, 0, ""⟩).2.1
      ⟨⟨"FM", 100, "#ffffff", 0, 0, ""⟩, 3⟩ rfl (by decide),
   (C6_replace_upsert [((100 : ℤ), ⟨⟨"FM", 100, "#ffffff", 0, 0, ""⟩, 3⟩)]
      ⟨"FM2", 100, "#000000", 0, 0, ""⟩).1⟩

end SigDigger
